import Mathlib

/-!
Verification development for the scof musical-score format core.

The definitions below are a shallow embedding of the Rust sources:
`src/fraction.rs`, `src/note/duration.rs`, `src/note/pitch.rs`,
`src/note/mod.rs` and `src/lib.rs`.  Machine integers (`u8`, `u16`) are
modelled as `Nat` with the 8-bit bounds made explicit exactly where the
source's overflow/truncation behaviour matters.  Fallible code returns
`Option`/`PRes`; a Rust `panic!`, slice-bounds failure, `unwrap` failure or
checked-arithmetic overflow is modelled as `Option.none` (for the fraction
arithmetic) or as the dedicated `PRes.panic` constructor (for the parsers
and navigation, whose source can also return a structured `Err(())`,
modelled by `PRes.err`).  Strings are modelled as `List Char`; the marking
grammar is ASCII, where Rust byte indices and character indices coincide.
-/

/-- Result of running a fallible Rust function that may also panic:
`panic` models an abrupt, unrecoverable termination (a `panic!`,
out-of-bounds slice/index, or failed `unwrap`), `err` models the structured
`Err(())` return, and `ok` the success value. -/
inductive PRes (α : Type) where
  | panic : PRes α
  | err : PRes α
  | ok : α → PRes α
deriving DecidableEq, Repr

/-- Fraction from `src/fraction.rs`: `{ num: u8, den: u8 }`.  Both fields
are `u8` in the source; they are modelled as `Nat`, with the 8-bit limits
enforced in the operations where the source's behaviour depends on them. -/
structure Fraction where
  num : Nat
  den : Nat
deriving DecidableEq, Repr

/-- Fraction::recip — swaps numerator and denominator. -/
def Fraction.recip (a : Fraction) : Fraction := ⟨a.den, a.num⟩

/-- Loop body of `gcd_i` from `src/fraction.rs`.  The source's `loop` is
given a fuel argument; `fuel = b` always suffices because the second
argument strictly decreases every iteration (`b' = b % a' < a' = a % b < b`),
so the fuel-exhaustion arm is unreachable from `gcd_i`. -/
def gcdLoop : Nat → Nat → Nat → Nat
  | 0, a, _ => a
  | fuel + 1, a, b =>
    let a' := a % b
    if a' = 0 then b
    else
      let b' := b % a'
      if b' = 0 then a' else gcdLoop fuel a' b'

/-- Iterative greatest common divisor `gcd_i` from `src/fraction.rs`:
short-circuits when either operand is zero, otherwise runs the
remainder-swapping loop. -/
def gcd_i (a b : Nat) : Nat :=
  if a = 0 then b else if b = 0 then a else gcdLoop b a b

theorem gcdLoop_eq_gcd (fuel : Nat) : ∀ a b : Nat, b ≠ 0 → b ≤ fuel →
    gcdLoop fuel a b = Nat.gcd a b := by
  induction fuel with
  | zero => intro a b hb hle; omega
  | succ fuel ih =>
    intro a b hb hle
    have hbpos : 0 < b := Nat.pos_of_ne_zero hb
    have hgab : Nat.gcd a b = Nat.gcd (a % b) b := by
      rw [Nat.gcd_comm a b, Nat.gcd_rec b a]
    by_cases ha' : a % b = 0
    · simp only [gcdLoop, ha', if_true]
      rw [hgab, ha', Nat.gcd_zero_left]
    · have ha'pos : 0 < a % b := Nat.pos_of_ne_zero ha'
      by_cases hb' : b % (a % b) = 0
      · simp only [gcdLoop, ha', if_false, hb', if_true]
        rw [hgab, Nat.gcd_rec (a % b) b, hb', Nat.gcd_zero_left]
      · simp only [gcdLoop, ha', if_false, hb', ite_false]
        have hlt1 : a % b < b := Nat.mod_lt a hbpos
        have hlt2 : b % (a % b) < a % b := Nat.mod_lt b ha'pos
        rw [ih (a % b) (b % (a % b)) hb' (by omega)]
        rw [hgab, Nat.gcd_rec (a % b) b, Nat.gcd_comm]

theorem gcd_i_eq_gcd (a b : Nat) : gcd_i a b = Nat.gcd a b := by
  unfold gcd_i
  by_cases ha : a = 0
  · simp [ha]
  · by_cases hb : b = 0
    · simp [ha, hb]
    · simp only [ha, hb, if_false]
      exact gcdLoop_eq_gcd b a b hb (Nat.le_refl b)

/-- Mul for Fraction (`src/fraction.rs`): numerators and denominators
multiply in `u16` (no overflow possible for `u8` inputs), the pair is
reduced by `gcd_i`, and each reduced component is narrowed back to `u8` by
`try_into().unwrap_or(0)` — a reduced value above 255 silently becomes 0.
`none` models the division-by-zero panic that occurs when both products are
zero (`gcd = 0`). -/
def Fraction.mul (a b : Fraction) : Option Fraction :=
  let num := a.num * b.num
  let den := a.den * b.den
  let g := gcd_i num den
  if g = 0 then none
  else some ⟨if num / g ≤ 255 then num / g else 0,
             if den / g ≤ 255 then den / g else 0⟩

/-- Div for Fraction (`src/fraction.rs`): `self * other.recip()`. -/
def Fraction.div (a b : Fraction) : Option Fraction := a.mul b.recip

/-- Common-denominator selection shared by Add and Sub in
`src/fraction.rs`: the `(self_mul, other_mul, den)` triple.  The caller has
already ruled out `other.den = 0` (the first `%` would panic); when the
third branch's `u8` product `self.den * other.den` overflows, checked
arithmetic fails, modelled as `none`. -/
def addParts (a b : Fraction) : Option (Nat × Nat × Nat) :=
  if a.den % b.den = 0 then some (1, a.den / b.den, a.den)
  else if b.den % a.den = 0 then some (b.den / a.den, 1, b.den)
  else if a.den * b.den ≤ 255 then some (b.den, a.den, a.den * b.den)
  else none

/-- Add for Fraction (`src/fraction.rs`): pick the common denominator,
combine the scaled numerators in `u8` (overflow is a checked-arithmetic
failure, modelled `none`), then reduce by `gcd_i`; a zero gcd would be a
division-by-zero panic, modelled `none`. -/
def Fraction.add (a b : Fraction) : Option Fraction :=
  if b.den = 0 then none
  else match addParts a b with
  | none => none
  | some (selfMul, otherMul, den) =>
    if a.num * selfMul ≤ 255 ∧ b.num * otherMul ≤ 255 ∧
        a.num * selfMul + b.num * otherMul ≤ 255 then
      let num := a.num * selfMul + b.num * otherMul
      let g := gcd_i num den
      if g = 0 then none else some ⟨num / g, den / g⟩
    else none

/-- Sub for Fraction (`src/fraction.rs`): same shape as Add; an unsigned
subtraction that would go negative is a checked-arithmetic failure,
modelled `none`. -/
def Fraction.sub (a b : Fraction) : Option Fraction :=
  if b.den = 0 then none
  else match addParts a b with
  | none => none
  | some (selfMul, otherMul, den) =>
    if a.num * selfMul ≤ 255 ∧ b.num * otherMul ≤ 255 ∧
        b.num * otherMul ≤ a.num * selfMul then
      let num := a.num * selfMul - b.num * otherMul
      let g := gcd_i num den
      if g = 0 then none else some ⟨num / g, den / g⟩
    else none

/-- PartialOrd for Fraction (`src/fraction.rs`): computes
`den = gcd_i(self.den, other.den)`, the two integer-division multipliers
`den / self.den` and `den / other.den`, and compares
`self.num * self_mul - other.num * other_mul` (in `i32`, modelled `Int`)
against 0.  A zero denominator makes one of the divisions a
division-by-zero panic, modelled `none`. -/
def Fraction.partialCmp (a b : Fraction) : Option Ordering :=
  if a.den = 0 ∨ b.den = 0 then none
  else
    let den := gcd_i a.den b.den
    let selfMul : Int := (den / a.den : Nat)
    let otherMul : Int := (den / b.den : Nat)
    let num : Int := (a.num : Int) * selfMul - (b.num : Int) * otherMul
    some (if num < 0 then Ordering.lt
          else if num = 0 then Ordering.eq
          else Ordering.gt)

theorem reduced_coprime (n d : Nat) (h : Nat.gcd n d ≠ 0) :
    Nat.gcd (n / Nat.gcd n d) (d / Nat.gcd n d) = 1 :=
  Nat.coprime_div_gcd_div_gcd (Nat.pos_of_ne_zero h)

/-- Duration from `src/note/duration.rs`: one variant per denomination,
carrying tuplet numerator, tuplet denominator and (except for the two
extremes, whose variants have no dot field) an augmentation-dot count. -/
inductive Duration where
  | den128 (n d : Nat)
  | den64 (n d a : Nat)
  | den32 (n d a : Nat)
  | den16 (n d a : Nat)
  | den8 (n d a : Nat)
  | den4 (n d a : Nat)
  | den2 (n d a : Nat)
  | num1 (n d a : Nat)
  | num2 (n d a : Nat)
  | num4 (n d : Nat)
deriving DecidableEq, Repr

/-- Dot count stored in a Duration value (0 for the two dot-less
variants). -/
def Duration.dots : Duration → Nat
  | .den128 _ _ => 0
  | .den64 _ _ a => a
  | .den32 _ _ a => a
  | .den16 _ _ a => a
  | .den8 _ _ a => a
  | .den4 _ _ a => a
  | .den2 _ _ a => a
  | .num1 _ _ a => a
  | .num2 _ _ a => a
  | .num4 _ _ => 0

/-- Legal dot maximum per denomination, from the variant documentation in
`src/note/duration.rs`. -/
def Duration.maxDots : Duration → Nat
  | .den128 _ _ => 0
  | .den64 _ _ _ => 1
  | .den32 _ _ _ => 2
  | .den16 _ _ _ => 3
  | .den8 _ _ _ => 4
  | .den4 _ _ _ => 4
  | .den2 _ _ _ => 3
  | .num1 _ _ _ => 2
  | .num2 _ _ _ => 1
  | .num4 _ _ => 0

/-- Duration::augment from `src/note/duration.rs`.  The source mutates in
place; the model returns the new value.  The `u8` increment `a + 1` is
taken modulo 256 (wrapping) before the `.min` clamp; the one-dot variants
set the field to 1 unconditionally and the dot-less variants are
unchanged. -/
def Duration.augment : Duration → Duration
  | .den128 n d => .den128 n d
  | .den64 n d _ => .den64 n d 1
  | .den32 n d a => .den32 n d (min ((a + 1) % 256) 2)
  | .den16 n d a => .den16 n d (min ((a + 1) % 256) 3)
  | .den8 n d a => .den8 n d (min ((a + 1) % 256) 4)
  | .den4 n d a => .den4 n d (min ((a + 1) % 256) 4)
  | .den2 n d a => .den2 n d (min ((a + 1) % 256) 3)
  | .num1 n d a => .num1 n d (min ((a + 1) % 256) 2)
  | .num2 n d _ => .num2 n d 1
  | .num4 n d => .num4 n d

/-- Duration::diminish from `src/note/duration.rs`: `saturating_sub(1)` on
the dot field (Nat subtraction is already saturating); the one-dot variants
set the field to 0 and the dot-less variants are unchanged. -/
def Duration.diminish : Duration → Duration
  | .den128 n d => .den128 n d
  | .den64 n d _ => .den64 n d 0
  | .den32 n d a => .den32 n d (a - 1)
  | .den16 n d a => .den16 n d (a - 1)
  | .den8 n d a => .den8 n d (a - 1)
  | .den4 n d a => .den4 n d (a - 1)
  | .den2 n d a => .den2 n d (a - 1)
  | .num1 n d a => .num1 n d (a - 1)
  | .num2 n d _ => .num2 n d 0
  | .num4 n d => .num4 n d

/-- Loop of `Duration2::from_str` (`src/note/duration.rs`): walk the
characters, pushing a fresh dot-free duration for each denomination letter;
a `.` pops the last pushed duration, augments it and pushes it back, and
fails (`Err(())`, modelled `none`) when there is nothing to pop; any other
character fails. -/
def durFromStrGo : List Char → List Duration → Option (List Duration)
  | [], out => some out
  | c :: rest, out =>
    match c with
    | 'O' => durFromStrGo rest (out ++ [.den128 1 1])
    | 'X' => durFromStrGo rest (out ++ [.den64 1 1 0])
    | 'Y' => durFromStrGo rest (out ++ [.den32 1 1 0])
    | 'S' => durFromStrGo rest (out ++ [.den16 1 1 0])
    | 'T' => durFromStrGo rest (out ++ [.den8 1 1 0])
    | 'Q' => durFromStrGo rest (out ++ [.den4 1 1 0])
    | 'U' => durFromStrGo rest (out ++ [.den2 1 1 0])
    | 'W' => durFromStrGo rest (out ++ [.num1 1 1 0])
    | 'V' => durFromStrGo rest (out ++ [.num2 1 1 0])
    | 'L' => durFromStrGo rest (out ++ [.num4 1 1])
    | '.' =>
      match out.getLast? with
      | some dur => durFromStrGo rest (out.dropLast ++ [dur.augment])
      | none => none
    | _ => none

/-- Duration2::from_str from `src/note/duration.rs` (`Err(())` is
`none`). -/
def durFromStr (s : List Char) : Option (List Duration) := durFromStrGo s []

/-- PitchName from `src/note/pitch.rs` (also redeclared identically in
`src/lib.rs`; one model type serves both). -/
inductive PitchName where
  | C | D | E | F | G | A | B
deriving DecidableEq, Repr

/-- PitchAccidental from `src/note/pitch.rs` (identical enum in
`src/lib.rs`). -/
inductive PitchAccidental where
  | doubleFlat | flatQuarterFlat | flat | quarterFlat | natural
  | quarterSharp | sharp | sharpQuarterSharp | doubleSharp
deriving DecidableEq, Repr

/-- PitchClass from `src/note/pitch.rs` (identical struct in
`src/lib.rs`). -/
structure PitchClass where
  name : PitchName
  accidental : Option PitchAccidental
deriving DecidableEq, Repr

/-- PitchOctave from `src/note/pitch.rs`: the bounded octave enumeration
from -1 (`octave_`) to 9. -/
inductive PitchOctave where
  | octave_ | octave0 | octave1 | octave2 | octave3 | octave4
  | octave5 | octave6 | octave7 | octave8 | octave9
deriving DecidableEq, Repr

/-- PitchOctave::lower from `src/note/pitch.rs`: predecessor, `none` at the
bottom octave. -/
def PitchOctave.lower : PitchOctave → Option PitchOctave
  | .octave_ => none
  | .octave0 => some .octave_
  | .octave1 => some .octave0
  | .octave2 => some .octave1
  | .octave3 => some .octave2
  | .octave4 => some .octave3
  | .octave5 => some .octave4
  | .octave6 => some .octave5
  | .octave7 => some .octave6
  | .octave8 => some .octave7
  | .octave9 => some .octave8

/-- PitchOctave::raise from `src/note/pitch.rs`: successor, `none` at the
top octave. -/
def PitchOctave.raise : PitchOctave → Option PitchOctave
  | .octave_ => some .octave0
  | .octave0 => some .octave1
  | .octave1 => some .octave2
  | .octave2 => some .octave3
  | .octave3 => some .octave4
  | .octave4 => some .octave5
  | .octave5 => some .octave6
  | .octave6 => some .octave7
  | .octave7 => some .octave8
  | .octave8 => some .octave9
  | .octave9 => none

/-- Articulation from `src/note/articulation.rs`. -/
inductive Articulation where
  | staccatissimo | staccato | tenuto | marcato | accent | slur
  | glissando | bendUpInto | bendDownInto | bendUpOut | bendDownOut
  | fermata | mute | open | harmonic | turn | turnInverted | trill
  | tremelo | strumDown | strumUp | pedal
deriving DecidableEq, Repr

/-- Note from `src/note/mod.rs`: optional pitch (absence is a rest), a
Fraction duration, and an articulation sequence. -/
structure Note where
  pitch : Option (PitchClass × PitchOctave)
  duration : Fraction
  articulation : List Articulation
deriving DecidableEq, Repr

/-- Index of the first non-digit character, starting the count at `i`;
`none` when every character is a digit.  This is the `for (i, c) in
char_indices` scan used by both parsers (Rust `char::is_numeric` restricted
to the ASCII digits, which is exact for the marking grammar). -/
def firstNonDigit : List Char → Nat → Option Nat
  | [], _ => none
  | c :: rest, i => if c.isDigit then firstNonDigit rest (i + 1) else some i

/-- Decimal value of a digit run (most significant first). -/
def digitsToNat (s : List Char) : Nat :=
  s.foldl (fun acc c => 10 * acc + (c.toNat - 48)) 0

/-- Rust `str::parse::<u8>`: fails on an empty string, a non-digit
character, or a value above 255.  (The source's parse also accepts a
leading sign, but every slice passed to it by the modelled parsers is a
pure digit run, so this definition is exact on all reachable inputs.) -/
def parseU8 (s : List Char) : Option Nat :=
  if s.isEmpty then none
  else if s.all Char.isDigit then
    if digitsToNat s ≤ 255 then some (digitsToNat s) else none
  else none

/-- Octave-character table from `Note::from_str` in `src/note/mod.rs`:
`-` is octave -1, `0`..`9` the rest; anything else is `Err(())`. -/
def charToOctave (c : Char) : Option PitchOctave :=
  match c with
  | '-' => some .octave_
  | '0' => some .octave0
  | '1' => some .octave1
  | '2' => some .octave2
  | '3' => some .octave3
  | '4' => some .octave4
  | '5' => some .octave5
  | '6' => some .octave6
  | '7' => some .octave7
  | '8' => some .octave8
  | '9' => some .octave9
  | _ => none

/-- Pitch-letter table shared by `Note::from_str` (`src/note/mod.rs`) and
`Scof::marking` (`src/lib.rs`); both sources `panic!` when this yields no
value. -/
def charToPitchName (c : Char) : Option PitchName :=
  match c with
  | 'A' => some .A
  | 'B' => some .B
  | 'C' => some .C
  | 'D' => some .D
  | 'E' => some .E
  | 'F' => some .F
  | 'G' => some .G
  | _ => none

/-- Tail of `Note::from_str` (`src/note/mod.rs`) after the duration has
been read: `s.get(end_index..)` (always defined in the char-list model) is
matched against `"R"`, otherwise `two[0]`/`two[1]` are indexed (PANIC when
missing), the octave character is decoded (`Err(())` when unrecognized) and
finally the pitch letter is matched (PANIC — `panic!("Failed to parse")` —
when it is not A..G). -/
def noteFromStrRest (s : List Char) (endIndex : Nat) (dur : Fraction) :
    PRes Note :=
  match s.drop endIndex with
  | ['R'] => .ok ⟨none, dur, []⟩
  | [] => .panic
  | c0 :: rest1 =>
    match rest1 with
    | [] => .panic
    | c1 :: _ =>
      match charToOctave c1 with
      | none => .err
      | some oct =>
        match charToPitchName c0 with
        | none => .panic
        | some nm => .ok ⟨some (⟨nm, none⟩, oct), dur, []⟩

/-- Note::from_str (FromStr) from `src/note/mod.rs`.  The leading digit
scan leaves `end_index = 0` when no non-digit is found.  In the tuplet
branch the second digit scan runs over `s[start_index..]` but stores the
RELATIVE index it finds straight into the absolute `end_index` (the
source's slip); the following slice `s[start_index..end_index]` therefore
panics whenever the stored index is below `start_index`, and otherwise
denotes `(s.take end_index).drop start_index`. -/
def noteFromStr (s : List Char) : PRes Note :=
  let endIndex := (firstNonDigit s 0).getD 0
  if (s.drop endIndex).head? = some '/' then
    match parseU8 (s.take endIndex) with
    | none => .err
    | some numer =>
      let startIndex := endIndex + 1
      let endIndex2 := (firstNonDigit (s.drop startIndex) 0).getD startIndex
      if endIndex2 < startIndex then .panic
      else
        match parseU8 ((s.take endIndex2).drop startIndex) with
        | none => .err
        | some denom => noteFromStrRest s endIndex2 ⟨numer, denom⟩
  else
    match parseU8 (s.take endIndex) with
    | none => .err
    | some denom => noteFromStrRest s endIndex ⟨1, denom⟩

/-- Note::move_step from `src/note/mod.rs`: apply `run` to the pitch when
there is one, otherwise materialize `create`; duration and articulation are
copied over unchanged. -/
def Note.moveStep (n : Note) (create : PitchClass × PitchOctave)
    (run : PitchClass × PitchOctave → Option (PitchClass × PitchOctave)) :
    Note :=
  { pitch := match n.pitch with
             | some p => run p
             | none => some create,
    duration := n.duration,
    articulation := n.articulation }

/-- Note::step_up from `src/note/mod.rs`: next letter in the diatonic
cycle; only the B→C transition asks for a raised octave, and when the
octave cannot be raised the original pitch is returned unchanged. -/
def Note.stepUp (n : Note) (create : PitchClass × PitchOctave) : Note :=
  n.moveStep create (fun pitch =>
    let step : PitchName × Bool :=
      match pitch.1.name with
      | .A => (.B, false)
      | .B => (.C, true)
      | .C => (.D, false)
      | .D => (.E, false)
      | .E => (.F, false)
      | .F => (.G, false)
      | .G => (.A, false)
    match (if step.2 then pitch.2.raise else some pitch.2) with
    | some oct => some (⟨step.1, pitch.1.accidental⟩, oct)
    | none => some (pitch.1, pitch.2))

/-- Note::step_down from `src/note/mod.rs`: previous letter in the diatonic
cycle; only the C→B transition asks for a lowered octave, and when the
octave cannot be lowered the original pitch is returned unchanged. -/
def Note.stepDown (n : Note) (create : PitchClass × PitchOctave) : Note :=
  n.moveStep create (fun pitch =>
    let step : PitchName × Bool :=
      match pitch.1.name with
      | .A => (.G, false)
      | .B => (.A, false)
      | .C => (.B, true)
      | .D => (.C, false)
      | .E => (.D, false)
      | .F => (.E, false)
      | .G => (.F, false)
    match (if step.2 then pitch.2.lower else some pitch.2) with
    | some oct => some (⟨step.1, pitch.1.accidental⟩, oct)
    | none => some (pitch.1, pitch.2))

/-- Dynamic from `src/lib.rs` (named `LibDynamic` because `Dynamic` is
taken by the Lean prelude). -/
inductive LibDynamic where
  | pppppp | ppppp | pppp | ppp | pp | p | mp | mf
  | f | ff | fff | ffff | fffff | ffffff
  | n | sf | sfz | fp | sfp
deriving DecidableEq, Repr

/-- Articulation enum from `src/lib.rs` (distinct from the one in
`src/note/articulation.rs`). -/
inductive LibArticulation where
  | staccatissimo | staccato | tenuto | tenutoStaccato | marcato
  | marcatoStaccato | marcatoTenuto | accent | accentStaccato
  | accentTenuto | slur | glissando | bendUpInto | bendDownInto
  | bendUpOut | bendDownOut | fermata | mute | open | harmonic
  | turn | turnInverted | trill | tremelo | strumDown | strumUp | pedal
deriving DecidableEq, Repr

/-- Note struct from `src/lib.rs` (distinct from the one in
`src/note/mod.rs`): the octave is a plain `i8` and the duration a bare
`(u8, u8)` pair. -/
structure LibNote where
  pitch : Option (PitchClass × Int)
  duration : Nat × Nat
  articulation : Option LibArticulation
deriving DecidableEq, Repr

/-- Marking from `src/lib.rs`.  The `repeat` variant is named `repeatMark`
here. -/
inductive LibMarking where
  | dynamic (d : LibDynamic)
  | graceInto (n : LibNote)
  | graceOutOf (n : LibNote)
  | note (n : LibNote)
  | breath
  | caesuraShort
  | caesuraLong
  | cresc
  | dim
  | pizz
  | arco
  | mute
  | open
  | repeatMark
deriving DecidableEq, Repr

/-- Cursor from `src/lib.rs`: a (measure, channel, marking) index triple. -/
structure Cursor where
  measure : Nat
  chan : Nat
  marking : Nat
deriving DecidableEq, Repr

/-- Chan from `src/lib.rs`: marking texts plus the parallel lyric list. -/
structure Chan where
  notes : List (List Char)
  lyric : List (List Char)
deriving DecidableEq, Repr

/-- Bar from `src/lib.rs`: optional signature index, channels, repeat
symbols. -/
structure Bar where
  sig : Option Nat
  chan : List Chan
  repeats : List (List Char)
deriving DecidableEq, Repr

/-- Sig from `src/lib.rs`. -/
structure Sig where
  key : Nat
  time : List Char
  tempo : Nat
  swing : Option Nat
deriving DecidableEq, Repr

/-- Movement from `src/lib.rs`: signatures and measures. -/
structure Movement where
  sig : List Sig
  bar : List Bar
deriving DecidableEq, Repr

/-- Scof from `src/lib.rs`.  The title, cover, meta, style, synth and
soundfont fields have no influence on the marking/navigation operations
modelled here and are omitted. -/
structure Scof where
  movement : List Movement
deriving DecidableEq, Repr

/-- Marking-text parse performed inline by `Scof::marking` in
`src/lib.rs` (it has no tuplet branch): scan the leading digit run, parse
it with `.unwrap()` (PANIC on failure, e.g. an empty run or overflow),
match the remainder against `"R"`, otherwise index `two[0]`/`two[1]`
(PANIC when missing), parse the octave character as `i8` with `.unwrap()`
(PANIC on a non-digit such as a lone `-`), and match the pitch letter
(PANIC — `panic!("Failed to parse")` — when it is not A..G). -/
def parseLibMarking (s : List Char) : PRes LibMarking :=
  let endIndex := (firstNonDigit s 0).getD 0
  match parseU8 (s.take endIndex) with
  | none => .panic
  | some denom =>
    match s.drop endIndex with
    | ['R'] => .ok (.note ⟨none, (1, denom), none⟩)
    | [] => .panic
    | c0 :: rest1 =>
      match rest1 with
      | [] => .panic
      | c1 :: _ =>
        if c1.isDigit then
          match charToPitchName c0 with
          | none => .panic
          | some nm =>
            .ok (.note ⟨some (⟨nm, none⟩, (c1.toNat - 48 : Int)),
                        (1, denom), none⟩)
        else .panic

/-- Scof::marking_str from `src/lib.rs`: resolve
movement → bar → channel → marking text, `none` at the first missing
level. -/
def Scof.markingStr (scof : Scof) (movement : Nat) (c : Cursor) :
    Option (List Char) := do
  let m ← scof.movement.get? movement
  let b ← m.bar.get? c.measure
  let ch ← b.chan.get? c.chan
  ch.notes.get? c.marking

/-- Channel note-text list addressed by a cursor (movement 0), used to
express the `marking_len` probe loop. -/
def Scof.notesAt (scof : Scof) (c : Cursor) : Option (List (List Char)) := do
  let m ← scof.movement.get? 0
  let b ← m.bar.get? c.measure
  let ch ← b.chan.get? c.chan
  pure ch.notes

/-- Scof::marking from `src/lib.rs`: `none` when the address does not
exist, otherwise the inline parse (which can PANIC). -/
def Scof.marking (scof : Scof) (c : Cursor) : PRes (Option LibMarking) :=
  match scof.markingStr 0 c with
  | none => .ok none
  | some s =>
    match parseLibMarking s with
    | .panic => .panic
    | .err => .err
    | .ok m => .ok (some m)

/-- Probe count for `Scof::marking_len`: the source walks marking indices
0, 1, 2, … of the channel until `Scof::marking` yields no value.  A present
entry either parses (count it and continue) or panics; the first absent
index — the channel list's end — stops the loop, so the walk is exactly
this left-to-right traversal of the note list. -/
def countParsed : List (List Char) → PRes Nat
  | [] => .ok 0
  | s :: rest =>
    match parseLibMarking s with
    | .panic => .panic
    | .err => .err
    | .ok _ =>
      match countParsed rest with
      | .panic => .panic
      | .err => .err
      | .ok n => .ok (n + 1)

/-- Scof::marking_len from `src/lib.rs` (the cursor's own marking index is
ignored: the probe restarts at marking 0). -/
def Scof.markingLen (scof : Scof) (c : Cursor) : PRes Nat :=
  match scof.notesAt c with
  | none => .ok 0
  | some notes => countParsed notes

/-- Cursor::right from `src/lib.rs`: step to the next marking while one
remains, otherwise cross the measure boundary — increment the measure and
reset the marking to 0 — without checking that the new measure exists. -/
def Cursor.right (c : Cursor) (scof : Scof) : PRes Cursor :=
  match scof.markingLen c with
  | .panic => .panic
  | .err => .err
  | .ok len =>
    if c.marking + 1 < len then .ok { c with marking := c.marking + 1 }
    else .ok { measure := c.measure + 1, chan := c.chan, marking := 0 }

/-- Cursor::left from `src/lib.rs`: step back within the measure; at
marking 0 of a later measure, move to the previous measure's last marking
(or 0 when it is empty); at measure 0, marking 0 do nothing. -/
def Cursor.left (c : Cursor) (scof : Scof) : PRes Cursor :=
  if c.marking > 0 then .ok { c with marking := c.marking - 1 }
  else if c.measure ≠ 0 then
    let c2 := { c with measure := c.measure - 1 }
    match scof.markingLen c2 with
    | .panic => .panic
    | .err => .err
    | .ok len => .ok { c2 with marking := if len > 0 then len - 1 else 0 }
  else .ok c

/-- Repeated application of `Cursor::left`, propagating any failure. -/
def Cursor.leftIter (scof : Scof) : Nat → Cursor → PRes Cursor
  | 0, c => .ok c
  | n + 1, c =>
    match c.left scof with
    | .panic => .panic
    | .err => .err
    | .ok c2 => Cursor.leftIter scof n c2

/-- Example score used by the witnesses: one movement, one measure, one
channel holding the single whole-measure rest marking `1R` (the
`Chan::default()` contents). -/
def exScof : Scof :=
  ⟨[⟨[], [⟨none, [⟨[['1', 'R']], []⟩], []⟩]⟩]⟩


theorem add_reduced (a b r : Fraction) (h : a.add b = some r) :
    Nat.gcd r.num r.den = 1 := by
  unfold Fraction.add at h
  split at h
  next => simp at h
  next =>
    split at h
    next => simp at h
    next sm om d heq =>
      split at h
      next hcond =>
        simp only [] at h
        split at h
        next => simp at h
        next hg =>
          injection h with h
          subst h
          simp only [gcd_i_eq_gcd] at hg ⊢
          exact reduced_coprime _ _ hg
      next => simp at h

theorem sub_reduced (a b r : Fraction) (h : a.sub b = some r) :
    Nat.gcd r.num r.den = 1 := by
  unfold Fraction.sub at h
  split at h
  next => simp at h
  next =>
    split at h
    next => simp at h
    next sm om d heq =>
      split at h
      next hcond =>
        simp only [] at h
        split at h
        next => simp at h
        next hg =>
          injection h with h
          subst h
          simp only [gcd_i_eq_gcd] at hg ⊢
          exact reduced_coprime _ _ hg
      next => simp at h

theorem mul_reduced (a b r : Fraction) (h : a.mul b = some r)
    (h1 : (a.num * b.num) / Nat.gcd (a.num * b.num) (a.den * b.den) ≤ 255)
    (h2 : (a.den * b.den) / Nat.gcd (a.num * b.num) (a.den * b.den) ≤ 255) :
    Nat.gcd r.num r.den = 1 := by
  unfold Fraction.mul at h
  simp only [gcd_i_eq_gcd] at h
  split at h
  next => simp at h
  next hg =>
    injection h with h
    subst h
    simp only [if_pos h1, if_pos h2]
    exact reduced_coprime _ _ hg

/-- Claim C1: the claim asserts that every string conforming to the marking
grammar — optional `num/` tuplet prefix, denominator digits, then `R` or a
letter A..G plus an octave character — parses successfully and formats back
to itself.  It is false: the tuplet branch of `Note::from_str` stores the
second digit scan's relative index into the absolute `end_index`, so for
the grammar-conforming input `3/2C4` the denominator slice is
`s[2..1]`, which is an out-of-bounds slice panic; parsing does not succeed
at all, let alone round-trip. -/
theorem c1_tuplet_parse_panics :
    noteFromStr ['3', '/', '2', 'C', '4'] = PRes.panic := by rfl

/-- Claim C2: parsing is claimed to return a structured result on every
input, with an unrecognized pitch letter yielding a parse error rather than
an abrupt termination.  The code instead hits `panic!("Failed to parse")`
in both `Note::from_str` (`src/note/mod.rs`) and `Scof::marking`
(`src/lib.rs`) on the input `4H4`, whose pitch letter `H` is not A..G. -/
theorem c2_unknown_letter_panics :
    noteFromStr ['4', 'H', '4'] = PRes.panic ∧
    parseLibMarking ['4', 'H', '4'] = PRes.panic := by
  exact ⟨rfl, rfl⟩

/-- Claim C3: the ordering comparison is claimed to agree with exact
rational ordering by cross-multiplication.  It does not: `partial_cmp`
takes `den = gcd(self.den, other.den)` and the integer quotients
`den / self.den`, `den / other.den` as multipliers, so for 1/2 and 3/4
(gcd of denominators 2, multipliers 1 and 0) it reports `Greater`, while
exact cross-multiplication gives 1·4 < 3·2, i.e. `Less`. -/
theorem c3_cmp_disagrees_with_rationals :
    Fraction.partialCmp ⟨1, 2⟩ ⟨3, 4⟩ = some Ordering.gt ∧
    (Fraction.num ⟨1, 2⟩) * (Fraction.den ⟨3, 4⟩) <
      (Fraction.num ⟨3, 4⟩) * (Fraction.den ⟨1, 2⟩) := by
  exact ⟨by rfl, by decide⟩

/-- Claim C4, counterexample: with the well-formed operands 255/2 and
255/3, Mul computes 65025/6, reduces by gcd 3 to 21675/2, and the
numerator — too large for `u8` — is truncated to 0 by
`try_into().unwrap_or(0)`; the result 0/2 has `gcd(0, 2) = 2 ≠ 1`, so it is
not in lowest terms. -/
theorem c4_mul_truncation_counterexample :
    (Fraction.den ⟨255, 2⟩ ≠ 0) ∧ (Fraction.den ⟨255, 3⟩ ≠ 0) ∧
    Fraction.mul ⟨255, 2⟩ ⟨255, 3⟩ = some ⟨0, 2⟩ ∧
    Nat.gcd (Fraction.num ⟨0, 2⟩) (Fraction.den ⟨0, 2⟩) ≠ 1 := by
  refine ⟨by decide, by decide, by rfl, by decide⟩

/-- Claim C4 (amended): for well-formed operands, every Add and Sub result
that is returned (no overflow failure) is in lowest terms, and every Mul
and Div result is in lowest terms provided the gcd-reduced numerator and
denominator both fit in `u8` — the sole exception, forced by the
counterexample, is the `unwrap_or(0)` truncation when a reduced component
exceeds 255. -/
theorem c4_results_in_lowest_terms :
    (∀ a b r : Fraction, a.den ≠ 0 → b.den ≠ 0 → a.add b = some r →
       Nat.gcd r.num r.den = 1) ∧
    (∀ a b r : Fraction, a.den ≠ 0 → b.den ≠ 0 → a.sub b = some r →
       Nat.gcd r.num r.den = 1) ∧
    (∀ a b r : Fraction, a.mul b = some r →
       (a.num * b.num) / Nat.gcd (a.num * b.num) (a.den * b.den) ≤ 255 →
       (a.den * b.den) / Nat.gcd (a.num * b.num) (a.den * b.den) ≤ 255 →
       Nat.gcd r.num r.den = 1) ∧
    (∀ a b r : Fraction, a.div b = some r →
       (a.num * b.den) / Nat.gcd (a.num * b.den) (a.den * b.num) ≤ 255 →
       (a.den * b.num) / Nat.gcd (a.num * b.den) (a.den * b.num) ≤ 255 →
       Nat.gcd r.num r.den = 1) := by
  refine ⟨?_, ?_, ?_, ?_⟩
  · intro a b r _ _ h; exact add_reduced a b r h
  · intro a b r _ _ h; exact sub_reduced a b r h
  · intro a b r h h1 h2; exact mul_reduced a b r h h1 h2
  · intro a b r h h1 h2; exact mul_reduced a b.recip r h h1 h2

/-- Witness for C4: the crate's own test values — 1/2 + 3/4 = 5/4 and
1/2 × 3/4 = 3/8 — instantiate the amended theorem with every hypothesis
discharged concretely. -/
theorem c4_results_in_lowest_terms_witness :
    Fraction.add ⟨1, 2⟩ ⟨3, 4⟩ = some ⟨5, 4⟩ ∧ Nat.gcd 5 4 = 1 ∧
    Fraction.mul ⟨1, 2⟩ ⟨3, 4⟩ = some ⟨3, 8⟩ ∧ Nat.gcd 3 8 = 1 :=
  ⟨by rfl,
   c4_results_in_lowest_terms.1 ⟨1, 2⟩ ⟨3, 4⟩ ⟨5, 4⟩ (by decide) (by decide)
     (by rfl),
   by rfl,
   c4_results_in_lowest_terms.2.2.1 ⟨1, 2⟩ ⟨3, 4⟩ ⟨3, 8⟩ (by rfl) (by decide)
     (by decide)⟩

/-- Claim C5: parsing duration text is claimed to fail both on an
unrecognized letter and on dots past the denomination's maximum.  The
first half holds (`Z` is rejected), but the second is false: on `Q.....`
— a quarter note with five dots, one past its maximum of four —
`Duration2::from_str` silently saturates via `augment()` (the source even
carries a TODO to make this fail) and returns success with four dots. -/
theorem c5_excess_dots_saturate_not_fail :
    durFromStr ['Q', '.', '.', '.', '.', '.'] = some [Duration.den4 1 1 4] ∧
    durFromStr ['Z'] = none := by
  exact ⟨by rfl, by rfl⟩

/-- Claim C6, counterexample: the claim's frozen ranges state "whole: up
to 1" dot and "double-whole: up to 2" dots, but the source has these two
swapped — `Num1` (whole, `W`) is documented "0, 1 or 2 augmentation dots"
and its `augment` clamps at `(a + 1).min(2)`, while `Num2` (double-whole,
`V`) allows "0 or 1".  A whole note with 1 dot is therefore within the
claim's stated range, yet `augment()` takes it to 2 dots, outside that
stated range, refuting the claim as frozen. -/
theorem c6_whole_note_dot_range_counterexample :
    (Duration.num1 1 1 1).dots ≤ 1 ∧
    (Duration.num1 1 1 1).augment = Duration.num1 1 1 2 ∧
    ¬(Duration.num1 1 1 1).augment.dots ≤ 1 := by
  exact ⟨by decide, by rfl, by decide⟩

/-- Claim C6 (amended): for any Duration whose dot count is within its
denomination's legal range — as the source defines it: 128th and
quadruple-whole 0; 64th and double-whole up to 1; 32nd and whole up to 2;
16th and half up to 3; eighth and quarter up to 4 (the frozen claim's
bounds for whole and double-whole are swapped) — `augment()` and
`diminish()` keep it within that range; augment saturates at the maximum —
five augments of a dot-free quarter note give exactly 4 dots — and
diminish saturates at 0, a no-op on the dot-free 128th note. -/
theorem c6_dot_bounds_invariant :
    (∀ dur : Duration, dur.dots ≤ dur.maxDots →
       dur.augment.dots ≤ dur.maxDots ∧ dur.diminish.dots ≤ dur.maxDots) ∧
    (Duration.den4 1 1 0).augment.augment.augment.augment.augment
        = Duration.den4 1 1 4 ∧
    (∀ n d : Nat, (Duration.den128 n d).diminish = Duration.den128 n d) := by
  refine ⟨?_, by rfl, fun n d => rfl⟩
  intro dur h
  cases dur <;>
    simp only [Duration.augment, Duration.diminish, Duration.dots,
      Duration.maxDots] at h ⊢ <;> omega

/-- Witness for C6: the invariant applied to the dot-free quarter note. -/
theorem c6_dot_bounds_invariant_witness :
    (Duration.den4 1 1 0).augment.dots ≤ (Duration.den4 1 1 0).maxDots ∧
    (Duration.den4 1 1 0).diminish.dots ≤ (Duration.den4 1 1 0).maxDots :=
  c6_dot_bounds_invariant.1 (Duration.den4 1 1 0) (by decide)

/-- Claim C7: whenever the cursor sits at the last marking of its measure's
channel (`marking + 1 = marking_len`), `right` moves it to
`(measure + 1, same channel, marking 0)` — the measure is incremented
unconditionally, with no check that the new measure exists. -/
theorem c7_right_crosses_measure_boundary (scof : Scof) (c : Cursor)
    (len : Nat) (h1 : scof.markingLen c = PRes.ok len)
    (h2 : c.marking + 1 = len) :
    c.right scof = PRes.ok ⟨c.measure + 1, c.chan, 0⟩ := by
  unfold Cursor.right
  rw [h1]
  simp only [if_neg (by omega : ¬c.marking + 1 < len)]

/-- Witness for C7: in the one-measure example score the cursor at
marking 0 of the single-marking channel is at the last marking, and `right`
sends it to measure 1 (which does not exist) with marking 0. -/
theorem c7_right_crosses_measure_boundary_witness :
    Cursor.right ⟨0, 0, 0⟩ exScof = PRes.ok ⟨1, 0, 0⟩ :=
  c7_right_crosses_measure_boundary exScof ⟨0, 0, 0⟩ 1 (by rfl) (by rfl)

/-- Claim C8: `left` at measure 0, marking 0 (any channel) leaves the
cursor unchanged, and consequently any number of repeated `left` calls
there causes no state change. -/
theorem c8_left_clamps_at_origin (scof : Scof) (c : Cursor)
    (h1 : c.measure = 0) (h2 : c.marking = 0) :
    c.left scof = PRes.ok c ∧
    ∀ n : Nat, Cursor.leftIter scof n c = PRes.ok c := by
  have hl : c.left scof = PRes.ok c := by
    unfold Cursor.left
    rw [if_neg (by omega : ¬c.marking > 0), if_neg (by simp [h1])]
  refine ⟨hl, ?_⟩
  intro n
  induction n with
  | zero => rfl
  | succ n ih =>
    unfold Cursor.leftIter
    rw [hl]
    exact ih

/-- Witness for C8: three consecutive `left` calls at measure 0, marking 0
of the example score change nothing. -/
theorem c8_left_clamps_at_origin_witness :
    Cursor.left ⟨0, 0, 0⟩ exScof = PRes.ok ⟨0, 0, 0⟩ ∧
    Cursor.leftIter exScof 3 ⟨0, 0, 0⟩ = PRes.ok ⟨0, 0, 0⟩ :=
  ⟨(c8_left_clamps_at_origin exScof ⟨0, 0, 0⟩ rfl rfl).1,
   (c8_left_clamps_at_origin exScof ⟨0, 0, 0⟩ rfl rfl).2 3⟩

/-- Claim C9: `step_up` and `step_down` only ever touch the pitch field —
the duration and the articulation sequence of the returned note equal those
of the input note, for every note and every `create` default. -/
theorem c9_step_preserves_duration_articulation
    (n : Note) (create : PitchClass × PitchOctave) :
    (n.stepUp create).duration = n.duration ∧
    (n.stepUp create).articulation = n.articulation ∧
    (n.stepDown create).duration = n.duration ∧
    (n.stepDown create).articulation = n.articulation :=
  ⟨rfl, rfl, rfl, rfl⟩

/-- Claim C10: the diatonic step operations clamp at the octave ends — on a
pitched note with letter B and octave 9 `step_up` returns the note
unchanged, and on letter C, octave -1 `step_down` returns the note
unchanged. -/
theorem c10_step_clamps_at_octave_ends (n : Note)
    (create : PitchClass × PitchOctave) (pc : PitchClass) :
    (n.pitch = some (pc, PitchOctave.octave9) → pc.name = PitchName.B →
       n.stepUp create = n) ∧
    (n.pitch = some (pc, PitchOctave.octave_) → pc.name = PitchName.C →
       n.stepDown create = n) := by
  obtain ⟨p, dur, art⟩ := n
  obtain ⟨nm, acc⟩ := pc
  constructor
  · rintro rfl rfl
    rfl
  · rintro rfl rfl
    rfl

/-- Witness for C10: B9 is fixed by `step_up` and C-1 by `step_down`. -/
theorem c10_step_clamps_at_octave_ends_witness :
    Note.stepUp ⟨some (⟨PitchName.B, none⟩, PitchOctave.octave9), ⟨1, 4⟩, []⟩
        (⟨PitchName.C, none⟩, PitchOctave.octave4)
      = ⟨some (⟨PitchName.B, none⟩, PitchOctave.octave9), ⟨1, 4⟩, []⟩ ∧
    Note.stepDown ⟨some (⟨PitchName.C, none⟩, PitchOctave.octave_), ⟨1, 4⟩, []⟩
        (⟨PitchName.C, none⟩, PitchOctave.octave4)
      = ⟨some (⟨PitchName.C, none⟩, PitchOctave.octave_), ⟨1, 4⟩, []⟩ :=
  ⟨(c10_step_clamps_at_octave_ends _ _ _).1 rfl rfl,
   (c10_step_clamps_at_octave_ends _ _ _).2 rfl rfl⟩
